import Mathlib

/-!
Verification of the hpqc hybrid KEM combiner (package hybrid), the ed25519
signature wrapper, and the KEM scheme registry, as a shallow embedding of
the Go sources.  Byte strings are lists of naturals; Go interface values of
the kem key interfaces are an inductive of the concrete key types; Go
functions that can panic return a PanicOr value; fallible functions return
Except.  External primitives (Blake2b-256, base64, the ed25519 arithmetic,
PEM parsing) are black boxes and appear as function parameters.
-/

namespace HPQC

/-- Byte strings are modelled as lists of naturals. -/
abbrev Bytes := List Nat

/-- Errors of the kem package as used by the hybrid combiner.  The sentinel
errors kem.ErrSeedSize, kem.ErrTypeMismatch, kem.ErrCiphertextSize,
kem.ErrPubKeySize, kem.ErrPrivKeySize and hybrid.ErrUninitialized are
constructors; any other error value (for example one produced inside a
component scheme, or by errors.New) is comp with its message. -/
inductive KemError where
  | ErrSeedSize
  | ErrTypeMismatch
  | ErrCiphertextSize
  | ErrPubKeySize
  | ErrPrivKeySize
  | ErrUninitialized
  | comp (msg : String)
deriving DecidableEq

/-- Outcome of a Go call that may panic instead of returning: panic carries
the panic message, ok carries the returned value. -/
inductive PanicOr (α : Type) where
  | panic (msg : String)
  | ok (val : α)
deriving DecidableEq

/-- Decidable equality for Except results, so that concrete runs of the
embedded operations can be checked by evaluation. -/
instance {ε α : Type} [DecidableEq ε] [DecidableEq α] : DecidableEq (Except ε α) := fun x y =>
  match x, y with
  | .error a, .error b =>
    if h : a = b then isTrue (by rw [h])
    else isFalse (by intro hc; injection hc; contradiction)
  | .ok a, .ok b =>
    if h : a = b then isTrue (by rw [h])
    else isFalse (by intro hc; injection hc; contradiction)
  | .error _, .ok _ => isFalse (by intro hc; exact Except.noConfusion hc)
  | .ok _, .error _ => isFalse (by intro hc; exact Except.noConfusion hc)

/-- Dynamic values of the Go interface types kem.PublicKey and
kem.PrivateKey.  hybridPub and hybridPriv are the concrete pointer types
hybrid.PublicKey and hybrid.PrivateKey: the tag records the name of the
scheme the key back-references and the two fields are the component keys.
prim stands for any non-hybrid concrete key type, holding its serialized
bytes, and nilKey is the Go nil.  The Go type assertions in the hybrid
package check only the concrete type, which is exactly a match on the
constructor. -/
inductive KemKey where
  | hybridPub (tag : String) (first second : KemKey)
  | hybridPriv (tag : String) (first second : KemKey)
  | prim (bytes : Bytes)
  | nilKey
deriving DecidableEq

/-- A component kem.Scheme as the hybrid combiner consumes it: its declared
sizes and the operations the hybrid code calls on it. -/
structure ComponentKEM where
  PublicKeySize : Nat
  PrivateKeySize : Nat
  SeedSize : Nat
  SharedKeySize : Nat
  CiphertextSize : Nat
  EncapsulationSeedSize : Nat
  EncapsulateDeterministically : KemKey → Bytes → Except KemError (Bytes × Bytes)
  Decapsulate : KemKey → Bytes → Except KemError Bytes
  DeriveKeyPair : Bytes → KemKey × KemKey
  UnmarshalBinaryPublicKey : Bytes → Except KemError KemKey
  UnmarshalBinaryPrivateKey : Bytes → Except KemError KemKey

/-- Scheme for a hybrid KEM: hybrid.Scheme with its name and the two
component KEMs. -/
structure Scheme where
  name : String
  first : ComponentKEM
  second : ComponentKEM

/-- Scheme.PublicKeySize of the hybrid package. -/
def Scheme.PublicKeySize (sch : Scheme) : Nat :=
  sch.first.PublicKeySize + sch.second.PublicKeySize

/-- Scheme.PrivateKeySize of the hybrid package. -/
def Scheme.PrivateKeySize (sch : Scheme) : Nat :=
  sch.first.PrivateKeySize + sch.second.PrivateKeySize

/-- Scheme.SeedSize of the hybrid package. -/
def Scheme.SeedSize (sch : Scheme) : Nat :=
  sch.first.SeedSize + sch.second.SeedSize

/-- Scheme.SharedKeySize of the hybrid package: the sum of the component
shared key sizes. -/
def Scheme.SharedKeySize (sch : Scheme) : Nat :=
  sch.first.SharedKeySize + sch.second.SharedKeySize

/-- Scheme.CiphertextSize of the hybrid package. -/
def Scheme.CiphertextSize (sch : Scheme) : Nat :=
  sch.first.CiphertextSize + sch.second.CiphertextSize

/-- Scheme.EncapsulationSeedSize of the hybrid package. -/
def Scheme.EncapsulationSeedSize (sch : Scheme) : Nat :=
  sch.first.EncapsulationSeedSize + sch.second.EncapsulationSeedSize

/-- Modelled from the spec: byte-wise XOR of two byte strings, as used by
the split-PRF combiner (package kem/util is not part of src). -/
def xorBytes (a b : Bytes) : Bytes :=
  List.zipWith (fun x y => x ^^^ y) a b

/-- Modelled from the spec: util.PairSplitPRF of package kem/util, which is
not part of src.  Per spec section 4.3 and scenario C, the combined shared
secret is PRF(ss1 concat ct1 concat ct2) XOR PRF(ss2 concat ct1 concat ct2)
with PRF = Blake2b-256.  The Blake2b-256 primitive is an external black box
(golang.org/x/crypto/blake2b) and is passed in as prf; per the spec its
output is always 32 bytes. -/
def PairSplitPRF (prf : Bytes → Bytes) (ss1 ss2 ct1 ct2 : Bytes) : Bytes :=
  xorBytes (prf (ss1 ++ ct1 ++ ct2)) (prf (ss2 ++ ct1 ++ ct2))

/-- Scheme.EncapsulateDeterministically of the hybrid package: check the
seed length, slice the seed by the first component's encapsulation seed
size, assert the concrete key type, encapsulate with each component in
order propagating the first error, and return the concatenated ciphertext
and the split-PRF of the shared secrets. -/
def Scheme.EncapsulateDeterministically (prf : Bytes → Bytes) (sch : Scheme)
    (publicKey : KemKey) (seed : Bytes) : Except KemError (Bytes × Bytes) :=
  if seed.length ≠ sch.EncapsulationSeedSize then
    .error .ErrSeedSize
  else
    let fst := seed.take sch.first.EncapsulationSeedSize
    let snd := seed.drop sch.first.EncapsulationSeedSize
    match publicKey with
    | .hybridPub _ pub1 pub2 =>
      match sch.first.EncapsulateDeterministically pub1 fst with
      | .error e => .error e
      | .ok (ct1, ss1) =>
        match sch.second.EncapsulateDeterministically pub2 snd with
        | .error e => .error e
        | .ok (ct2, ss2) => .ok (ct1 ++ ct2, PairSplitPRF prf ss1 ss2 ct1 ct2)
    | _ => .error .ErrTypeMismatch

/-- Scheme.Decapsulate of the hybrid package: check the ciphertext length,
assert the concrete key type, split the ciphertext by the first component's
ciphertext size, decapsulate with each component in order propagating the
first error, and recompute the split-PRF. -/
def Scheme.Decapsulate (prf : Bytes → Bytes) (sch : Scheme)
    (sk : KemKey) (ct : Bytes) : Except KemError Bytes :=
  if ct.length ≠ sch.CiphertextSize then
    .error .ErrCiphertextSize
  else
    match sk with
    | .hybridPriv _ sk1 sk2 =>
      let firstSize := sch.first.CiphertextSize
      match sch.first.Decapsulate sk1 (ct.take firstSize) with
      | .error e => .error e
      | .ok ss1 =>
        match sch.second.Decapsulate sk2 (ct.drop firstSize) with
        | .error e => .error e
        | .ok ss2 => .ok (PairSplitPRF prf ss1 ss2 (ct.take firstSize) (ct.drop firstSize))
    | _ => .error .ErrTypeMismatch

/-- Scheme.DeriveKeyPair of the hybrid package.  The Go function returns
no error: on a seed length mismatch it panics with the fmt.Sprintf message,
otherwise it derives the component key pairs from the two seed slices. -/
def Scheme.DeriveKeyPair (sch : Scheme) (seed : Bytes) :
    PanicOr (KemKey × KemKey) :=
  if seed.length ≠ sch.first.SeedSize + sch.second.SeedSize then
    .panic ("seed size must be " ++ toString (sch.first.SeedSize + sch.second.SeedSize))
  else
    let p1 := sch.first.DeriveKeyPair (seed.take sch.first.SeedSize)
    let p2 := sch.second.DeriveKeyPair (seed.drop sch.first.SeedSize)
    .ok (.hybridPub sch.name p1.1 p2.1, .hybridPriv sch.name p1.2 p2.2)

/-- MarshalBinary method dispatch on a kem key value.  A prim key marshals
to its bytes (as the ed25519 wrapper does).  The hybrid keys follow
hybrid.PublicKey.MarshalBinary and hybrid.PrivateKey.MarshalBinary: a nil
component yields ErrUninitialized, otherwise the component encodings are
concatenated, propagating the first component error.  The nilKey case is
never reached by the hybrid code, which guards nil first. -/
def KemKey.MarshalBinary : KemKey → Except KemError Bytes
  | .prim b => .ok b
  | .nilKey => .error .ErrUninitialized
  | .hybridPub _ f s =>
    if f = .nilKey ∨ s = .nilKey then .error .ErrUninitialized
    else
      match f.MarshalBinary with
      | .error e => .error e
      | .ok bf =>
        match s.MarshalBinary with
        | .error e => .error e
        | .ok bs => .ok (bf ++ bs)
  | .hybridPriv _ f s =>
    if f = .nilKey ∨ s = .nilKey then .error .ErrUninitialized
    else
      match f.MarshalBinary with
      | .error e => .error e
      | .ok bf =>
        match s.MarshalBinary with
        | .error e => .error e
        | .ok bs => .ok (bf ++ bs)

/-- PrivateKey.Equal of the hybrid package.  The receiver is the pair of
component private keys; eqF and eqS are the Equal methods of the component
keys (their code lives outside the hybrid package and returns a Bool by the
kem.PrivateKey interface).  A failed type assertion on the argument returns
false. -/
def PrivateKey.Equal (eqF eqS : KemKey → KemKey → Bool)
    (first second : KemKey) (other : KemKey) : Bool :=
  match other with
  | .hybridPriv _ oF oS => eqF first oF && eqS second oS
  | _ => false

/-- PublicKey.Equal of the hybrid package, same shape as the private key
equality: false when the argument is not a hybrid public key, otherwise the
conjunction of the component equalities. -/
def PublicKey.Equal (eqF eqS : KemKey → KemKey → Bool)
    (first second : KemKey) (other : KemKey) : Bool :=
  match other with
  | .hybridPub _ oF oS => eqF first oF && eqS second oS
  | _ => false

/-- Scheme.UnmarshalBinaryPublicKey of the hybrid package. -/
def Scheme.UnmarshalBinaryPublicKey (sch : Scheme) (buf : Bytes) :
    Except KemError KemKey :=
  if buf.length ≠ sch.PublicKeySize then
    .error .ErrPubKeySize
  else
    let firstSize := sch.first.PublicKeySize
    match sch.first.UnmarshalBinaryPublicKey (buf.take firstSize) with
    | .error e => .error e
    | .ok pk1 =>
      match sch.second.UnmarshalBinaryPublicKey (buf.drop firstSize) with
      | .error e => .error e
      | .ok pk2 => .ok (.hybridPub sch.name pk1 pk2)

/-- Scheme.UnmarshalBinaryPrivateKey of the hybrid package. -/
def Scheme.UnmarshalBinaryPrivateKey (sch : Scheme) (buf : Bytes) :
    Except KemError KemKey :=
  if buf.length ≠ sch.PrivateKeySize then
    .error .ErrPrivKeySize
  else
    let firstSize := sch.first.PrivateKeySize
    match sch.first.UnmarshalBinaryPrivateKey (buf.take firstSize) with
    | .error e => .error e
    | .ok sk1 =>
      match sch.second.UnmarshalBinaryPrivateKey (buf.drop firstSize) with
      | .error e => .error e
      | .ok sk2 => .ok (.hybridPriv sch.name sk1 sk2)

/-- PublicKey.UnmarshalText of the hybrid package.  The receiver is the
triple of the fields of hybrid.PublicKey (scheme, first, second); pemParse
stands for pem.FromPublicPEMToBytes of the external pem package.  The
function returns the receiver state after the call together with the
returned error.  In the source the parsed key is assigned to the local
variable sk only (sk, ok = pubkey.(*PublicKey) rebinds the receiver
pointer variable, not the pointee), so no path writes through the
receiver. -/
def PublicKey.UnmarshalText (pemParse : Scheme → Bytes → Except KemError Bytes)
    (sch : Scheme) (first second : KemKey) (text : Bytes) :
    (Scheme × KemKey × KemKey) × Except KemError Unit :=
  match pemParse sch text with
  | .error e => ((sch, first, second), .error e)
  | .ok blob =>
    match Scheme.UnmarshalBinaryPublicKey sch blob with
    | .error e => ((sch, first, second), .error e)
    | .ok pubkey =>
      match pubkey with
      | .hybridPub _ _ _ => ((sch, first, second), .ok ())
      | _ => ((sch, first, second), .error (.comp "type assertion failed"))

end HPQC

namespace Ed25519

open HPQC (Bytes PanicOr)

/-- PublicKeySize of the ed25519 wrapper: 32 bytes. -/
def PublicKeySize : Nat := 32

/-- PrivateKeySize of the ed25519 wrapper: 64 bytes. -/
def PrivateKeySize : Nat := 64

/-- Error values of the ed25519 wrapper: errInvalidKey is the package
sentinel errors.New message. -/
inductive SignError where
  | errInvalidKey
deriving DecidableEq

/-- Dynamic values of the Go interface type sign.PublicKey: ed is the
concrete type of this package carrying the field values of
ed25519.PublicKey, while foreign is a public key of any other concrete
signature scheme type. -/
inductive SignPublicKey where
  | ed (pubKey : Bytes) (b64String : String)
  | foreign (bytes : Bytes)
deriving DecidableEq

/-- The ed25519 PublicKey struct state: its pubKey bytes and the cached
base64 string. -/
structure PublicKeyState where
  pubKey : Bytes
  b64String : String
deriving DecidableEq

/-- The ed25519 PrivateKey struct state: the embedded public key and the
private key bytes. -/
structure PrivateKeyState where
  pubKey : PublicKeyState
  privKey : Bytes
deriving DecidableEq

/-- PublicKey.Equal of the ed25519 wrapper.  The receiver is the pubKey
field; the Go body is hmac.Equal(p.pubKey, pubKey.(*PublicKey).pubKey)
whose type assertion has no ok form, so an argument of a different concrete
type panics at run time; hmac.Equal is a constant-time byte equality. -/
def PublicKey.Equal (p : Bytes) (other : SignPublicKey) : PanicOr Bool :=
  match other with
  | .ed q _ => .ok (decide (p = q))
  | .foreign _ => .panic "interface conversion"

/-- PublicKey.Verify of the ed25519 wrapper: it returns the boolean of the
external ed25519.Verify primitive (passed in as verify, taking the public
key, the message and the signature) and has no failing path. -/
def PublicKey.Verify (verify : Bytes → Bytes → Bytes → Bool)
    (p : Bytes) (signature message : Bytes) : PanicOr Bool :=
  .ok (verify p message signature)

/-- PublicKey.FromBytes of the ed25519 wrapper: a wrong-length buffer
returns errInvalidKey leaving the receiver as it was, otherwise the bytes
are copied in and the base64 cache is rebuilt (base64 is the external
encoding/base64 encoder). -/
def PublicKey.FromBytes (base64 : Bytes → String)
    (p : PublicKeyState) (data : Bytes) : PublicKeyState × Option SignError :=
  if data.length ≠ PublicKeySize then
    (p, some .errInvalidKey)
  else
    ({ pubKey := data, b64String := base64 data }, none)

/-- PrivateKey.FromBytes of the ed25519 wrapper: a wrong-length buffer
returns errInvalidKey, otherwise the private key bytes are copied, the
public key is recomputed by the external primitive edPublic, and the base64
cache is rebuilt. -/
def PrivateKey.FromBytes (base64 : Bytes → String) (edPublic : Bytes → Bytes)
    (p : PrivateKeyState) (b : Bytes) : PrivateKeyState × Option SignError :=
  if b.length ≠ PrivateKeySize then
    (p, some .errInvalidKey)
  else
    let priv := b
    let pub := edPublic priv
    ({ pubKey := { pubKey := pub, b64String := base64 pub }, privKey := priv }, none)

end Ed25519

namespace HPQC

/-- A registered KEM scheme as the registry of package kem/schemes sees it:
an object identity and its Name() string. -/
structure SchemeHandle where
  ident : Nat
  name : String
deriving DecidableEq

/-- Go strings.ToLower (external standard library), modelled as
per-character lower-casing. -/
def goToLower (s : String) : String :=
  String.mk (s.data.map Char.toLower)

/-- One step of the registry init loop: insert a scheme under the
lower-cased name, overwriting any earlier entry with the same key, exactly
as assignment into the Go map does. -/
def registryInsert (m : String → Option SchemeHandle) (s : SchemeHandle) :
    String → Option SchemeHandle :=
  fun k => if k = goToLower s.name then some s else m k

/-- The allSchemeNames map built by init: fold the scheme list in order
into an initially empty map. -/
def allSchemeNames (schemes : List SchemeHandle) : String → Option SchemeHandle :=
  schemes.foldl registryInsert (fun _ => none)

/-- ByName of package kem/schemes: look the lower-cased name up in the
map; a Go map read returns the zero value (nil, here none) on a miss. -/
def ByName (schemes : List SchemeHandle) (name : String) : Option SchemeHandle :=
  allSchemeNames schemes (goToLower name)

/-- A small concrete component KEM used to evaluate the hybrid code on
concrete inputs.  Its shared key size of 32 mirrors the real components
(the x25519 adapter and kyber768 both declare 32). -/
def toyA : ComponentKEM where
  PublicKeySize := 3
  PrivateKeySize := 4
  SeedSize := 1
  SharedKeySize := 32
  CiphertextSize := 2
  EncapsulationSeedSize := 1
  EncapsulateDeterministically := fun _ _ => .ok ([1, 2], [10])
  Decapsulate := fun _ _ => .ok [10]
  DeriveKeyPair := fun seed => (.prim seed, .prim seed)
  UnmarshalBinaryPublicKey := fun b => .ok (.prim b)
  UnmarshalBinaryPrivateKey := fun b => .ok (.prim b)

/-- A second concrete component KEM with different sizes than toyA. -/
def toyB : ComponentKEM where
  PublicKeySize := 2
  PrivateKeySize := 2
  SeedSize := 1
  SharedKeySize := 32
  CiphertextSize := 3
  EncapsulationSeedSize := 2
  EncapsulateDeterministically := fun _ _ => .ok ([3, 4, 5], [20])
  Decapsulate := fun _ _ => .ok [20]
  DeriveKeyPair := fun seed => (.prim seed, .prim seed)
  UnmarshalBinaryPublicKey := fun b => .ok (.prim b)
  UnmarshalBinaryPrivateKey := fun b => .ok (.prim b)

/-- A component KEM whose operations fail, to observe error propagation. -/
def toyFailA : ComponentKEM :=
  { toyA with
    EncapsulateDeterministically := fun _ _ => .error (.comp "boomA")
    Decapsulate := fun _ _ => .error (.comp "boomA") }

/-- A second failing component KEM with a distinct error message. -/
def toyFailB : ComponentKEM :=
  { toyB with
    EncapsulateDeterministically := fun _ _ => .error (.comp "boomB")
    Decapsulate := fun _ _ => .error (.comp "boomB") }

/-- A concrete hybrid scheme over toyA and toyB. -/
def toyScheme : Scheme where
  name := "toy"
  first := toyA
  second := toyB

/-- A hybrid scheme whose first component fails. -/
def toyFailScheme1 : Scheme where
  name := "toyFail1"
  first := toyFailA
  second := toyB

/-- A hybrid scheme whose second component fails. -/
def toyFailScheme2 : Scheme where
  name := "toyFail2"
  first := toyA
  second := toyFailB

/-- A concrete stand-in for the Blake2b-256 black box: like the real
primitive it returns 32 bytes on every input. -/
def prfZ : Bytes → Bytes := fun _ => List.replicate 32 0

end HPQC

namespace HPQC

/-- Helper: folding the registry insertions never changes the entry at a
key that none of the inserted schemes lower-cases to. -/
theorem registry_foldl_no_match (l : List SchemeHandle)
    (m : String → Option SchemeHandle) (k : String)
    (h : ∀ t ∈ l, k ≠ goToLower t.name) :
    (l.foldl registryInsert m) k = m k := by
  induction l generalizing m with
  | nil => rfl
  | cons a tl ih =>
    simp only [List.foldl_cons]
    rw [ih _ (fun t ht => h t (List.mem_cons_of_mem a ht))]
    unfold registryInsert
    rw [if_neg (h a (List.mem_cons_self a tl))]

/-- Helper: folding the registry insertions preserves a populated entry. -/
theorem registry_foldl_isSome_mono (l : List SchemeHandle)
    (m : String → Option SchemeHandle) (k : String)
    (h : (m k).isSome = true) :
    ((l.foldl registryInsert m) k).isSome = true := by
  induction l generalizing m with
  | nil => exact h
  | cons a tl ih =>
    simp only [List.foldl_cons]
    refine ih _ ?_
    unfold registryInsert
    by_cases hk : k = goToLower a.name
    · rw [if_pos hk]; rfl
    · rw [if_neg hk]; exact h

/-- Helper: after the init fold, the entry at the lower-cased name of any
listed scheme is populated. -/
theorem registry_foldl_mem (l : List SchemeHandle)
    (m : String → Option SchemeHandle) (s : SchemeHandle)
    (h : s ∈ l) :
    ((l.foldl registryInsert m) (goToLower s.name)).isSome = true := by
  induction l generalizing m with
  | nil => cases h
  | cons a tl ih =>
    simp only [List.foldl_cons]
    rcases List.mem_cons.mp h with rfl | htl
    · refine registry_foldl_isSome_mono tl _ _ ?_
      unfold registryInsert
      rw [if_pos rfl]
      rfl
    · exact ih _ htl

/-- C9: for every registered scheme s, ByName applied to any name that
case-folds to the name of s returns the same result as ByName of s.Name(),
and that result is populated; for a name whose case-folded form matches no
registered scheme, ByName returns none.  ByName is a total function. -/
theorem C9_registry_byname (schemes : List SchemeHandle) :
    (∀ s n, s ∈ schemes → goToLower n = goToLower s.name →
      ByName schemes n = ByName schemes s.name ∧
      (ByName schemes n).isSome = true) ∧
    (∀ n, (∀ t ∈ schemes, goToLower t.name ≠ goToLower n) →
      ByName schemes n = none) := by
  constructor
  · intro s n hs hn
    constructor
    · unfold ByName
      rw [hn]
    · unfold ByName allSchemeNames
      rw [hn]
      exact registry_foldl_mem schemes _ s hs
  · intro n hn
    unfold ByName allSchemeNames
    exact registry_foldl_no_match schemes _ _
      (fun t ht => fun hk => hn t ht (hk ▸ rfl))

/-- Witness for C9: on a concrete registry, the all-lower and all-upper
casings of a registered name resolve to the same populated entry, and an
unregistered name resolves to none. -/
theorem C9_registry_byname_witness :
    (ByName [⟨0, "Kyber768-X25519"⟩, ⟨1, "MLKEM768-X25519"⟩] "kyber768-x25519"
      = ByName [⟨0, "Kyber768-X25519"⟩, ⟨1, "MLKEM768-X25519"⟩] "Kyber768-X25519" ∧
     (ByName [⟨0, "Kyber768-X25519"⟩, ⟨1, "MLKEM768-X25519"⟩] "kyber768-x25519").isSome = true) ∧
    (ByName [⟨0, "Kyber768-X25519"⟩, ⟨1, "MLKEM768-X25519"⟩] "KYBER768-X25519"
      = ByName [⟨0, "Kyber768-X25519"⟩, ⟨1, "MLKEM768-X25519"⟩] "Kyber768-X25519" ∧
     (ByName [⟨0, "Kyber768-X25519"⟩, ⟨1, "MLKEM768-X25519"⟩] "KYBER768-X25519").isSome = true) ∧
    ByName [⟨0, "Kyber768-X25519"⟩, ⟨1, "MLKEM768-X25519"⟩] "nosuch" = none := by
  refine ⟨?_, ?_, ?_⟩
  · exact (C9_registry_byname _).1 ⟨0, "Kyber768-X25519"⟩ "kyber768-x25519"
      (by decide) (by decide)
  · exact (C9_registry_byname _).1 ⟨0, "Kyber768-X25519"⟩ "KYBER768-X25519"
      (by decide) (by decide)
  · exact (C9_registry_byname _).2 "nosuch" (by decide)

/-- C10: PublicKey.UnmarshalText leaves the receiver fields (scheme, first,
second) unchanged on every path, including the successful one: the parsed
key is only bound to a local variable and discarded. -/
theorem C10_unmarshaltext_frame (pemParse : Scheme → Bytes → Except KemError Bytes)
    (sch : Scheme) (first second : KemKey) (text : Bytes) :
    (PublicKey.UnmarshalText pemParse sch first second text).1 = (sch, first, second) := by
  unfold PublicKey.UnmarshalText
  split
  · rfl
  · split
    · rfl
    · split <;> rfl

/-- C8: a buffer whose length differs from the declared size fails to
unmarshal: the hybrid public and private key unmarshal functions return
ErrPubKeySize and ErrPrivKeySize, and the ed25519 wrapper FromBytes
functions return errInvalidKey, for every wrong-length buffer. -/
theorem C8_unmarshal_wrong_length :
    (∀ (sch : Scheme) (buf : Bytes), buf.length ≠ Scheme.PublicKeySize sch →
      Scheme.UnmarshalBinaryPublicKey sch buf = .error .ErrPubKeySize) ∧
    (∀ (sch : Scheme) (buf : Bytes), buf.length ≠ Scheme.PrivateKeySize sch →
      Scheme.UnmarshalBinaryPrivateKey sch buf = .error .ErrPrivKeySize) ∧
    (∀ (b64 : Bytes → String) (p : Ed25519.PublicKeyState) (data : Bytes),
      data.length ≠ Ed25519.PublicKeySize →
      (Ed25519.PublicKey.FromBytes b64 p data).2 = some .errInvalidKey) ∧
    (∀ (b64 : Bytes → String) (edPublic : Bytes → Bytes)
      (p : Ed25519.PrivateKeyState) (b : Bytes),
      b.length ≠ Ed25519.PrivateKeySize →
      (Ed25519.PrivateKey.FromBytes b64 edPublic p b).2 = some .errInvalidKey) := by
  refine ⟨?_, ?_, ?_, ?_⟩
  · intro sch buf h
    unfold Scheme.UnmarshalBinaryPublicKey
    rw [if_pos h]
  · intro sch buf h
    unfold Scheme.UnmarshalBinaryPrivateKey
    rw [if_pos h]
  · intro b64 p data h
    unfold Ed25519.PublicKey.FromBytes
    rw [if_pos h]
  · intro b64 edPublic p b h
    unfold Ed25519.PrivateKey.FromBytes
    rw [if_pos h]

/-- Witness for C8: buffers one byte shorter and one byte longer than the
declared sizes are rejected, on the concrete toy hybrid scheme (public key
size 5, private key size 6) and on the ed25519 wrapper (sizes 32 and 64). -/
theorem C8_unmarshal_wrong_length_witness :
    Scheme.UnmarshalBinaryPublicKey toyScheme (List.replicate 4 0) = .error .ErrPubKeySize ∧
    Scheme.UnmarshalBinaryPublicKey toyScheme (List.replicate 6 0) = .error .ErrPubKeySize ∧
    Scheme.UnmarshalBinaryPrivateKey toyScheme (List.replicate 5 0) = .error .ErrPrivKeySize ∧
    Scheme.UnmarshalBinaryPrivateKey toyScheme (List.replicate 7 0) = .error .ErrPrivKeySize ∧
    (Ed25519.PublicKey.FromBytes (fun _ => "") ⟨[], ""⟩ (List.replicate 31 0)).2
      = some .errInvalidKey ∧
    (Ed25519.PublicKey.FromBytes (fun _ => "") ⟨[], ""⟩ (List.replicate 33 0)).2
      = some .errInvalidKey ∧
    (Ed25519.PrivateKey.FromBytes (fun _ => "") (fun b => b) ⟨⟨[], ""⟩, []⟩
      (List.replicate 63 0)).2 = some .errInvalidKey := by
  refine ⟨?_, ?_, ?_, ?_, ?_, ?_, ?_⟩
  · exact C8_unmarshal_wrong_length.1 toyScheme _ (by decide)
  · exact C8_unmarshal_wrong_length.1 toyScheme _ (by decide)
  · exact C8_unmarshal_wrong_length.2.1 toyScheme _ (by decide)
  · exact C8_unmarshal_wrong_length.2.1 toyScheme _ (by decide)
  · exact C8_unmarshal_wrong_length.2.2.1 _ _ _ (by decide)
  · exact C8_unmarshal_wrong_length.2.2.1 _ _ _ (by decide)
  · exact C8_unmarshal_wrong_length.2.2.2 _ _ _ _ (by decide)

end HPQC

namespace HPQC

/-- Helper: the split-PRF output has the 32-byte Blake2b-256 length
whenever the PRF does. -/
theorem length_pairSplitPRF (prf : Bytes → Bytes) (h32 : ∀ x, (prf x).length = 32)
    (a b c d : Bytes) : (PairSplitPRF prf a b c d).length = 32 := by
  unfold PairSplitPRF xorBytes
  rw [List.length_zipWith, h32, h32]
  rfl

/-- C1 (amended): with a 32-byte-output PRF (Blake2b-256), every shared
secret returned without error by EncapsulateDeterministically and by
Decapsulate of a hybrid scheme is 32 bytes long, while the declared
SharedKeySize is the sum of the component shared key sizes, not 32. -/
theorem C1_shared_secret_length (prf : Bytes → Bytes)
    (h32 : ∀ x, (prf x).length = 32) (sch : Scheme) :
    (∀ pk seed ct ss,
      Scheme.EncapsulateDeterministically prf sch pk seed = .ok (ct, ss) →
      ss.length = 32) ∧
    (∀ sk ct ss,
      Scheme.Decapsulate prf sch sk ct = .ok ss → ss.length = 32) ∧
    Scheme.SharedKeySize sch = sch.first.SharedKeySize + sch.second.SharedKeySize := by
  refine ⟨?_, ?_, rfl⟩
  · intro pk seed ct ss h
    unfold Scheme.EncapsulateDeterministically at h
    split at h
    · simp at h
    · split at h
      · simp only [] at h
        split at h
        · simp at h
        · split at h
          · simp at h
          · simp only [Except.ok.injEq, Prod.mk.injEq] at h
            rw [← h.2]
            exact length_pairSplitPRF prf h32 _ _ _ _
      · simp at h
  · intro sk ct ss h
    unfold Scheme.Decapsulate at h
    split at h
    · simp at h
    · split at h
      · simp only [] at h
        split at h
        · simp at h
        · split at h
          · simp at h
          · simp only [Except.ok.injEq] at h
            rw [← h]
            exact length_pairSplitPRF prf h32 _ _ _ _
      · simp at h

/-- C1 counterexample: on a concrete hybrid of two components that each
declare a 32-byte shared key (as the real x25519 adapter and kyber768 do),
the shared secret produced by deterministic encapsulation and recovered by
decapsulation is 32 bytes, but scheme.SharedKeySize() is 64, so the secret
length is neither SharedKeySize() nor is SharedKeySize() equal to 32. -/
theorem C1_shared_secret_length_counterexample :
    Scheme.EncapsulateDeterministically prfZ toyScheme
      (KemKey.hybridPub "toy" (KemKey.prim [0, 0, 0]) (KemKey.prim [0, 0]))
      [0, 0, 0]
      = Except.ok ([1, 2, 3, 4, 5], List.replicate 32 0) ∧
    Scheme.Decapsulate prfZ toyScheme
      (KemKey.hybridPriv "toy" (KemKey.prim [0, 0, 0, 0]) (KemKey.prim [0, 0]))
      [1, 2, 3, 4, 5]
      = Except.ok (List.replicate 32 0) ∧
    (List.replicate 32 (0 : Nat)).length = 32 ∧
    Scheme.SharedKeySize toyScheme = 64 ∧
    (List.replicate 32 (0 : Nat)).length ≠ Scheme.SharedKeySize toyScheme ∧
    Scheme.SharedKeySize toyScheme ≠ 32 := by
  decide

/-- Witness for C1 (amended): the toy hybrid scheme declares the component
sum as its shared key size, and a concretely encapsulated shared secret has
length 32. -/
theorem C1_shared_secret_length_witness :
    Scheme.SharedKeySize toyScheme
      = toyScheme.first.SharedKeySize + toyScheme.second.SharedKeySize ∧
    (List.replicate 32 (0 : Nat)).length = 32 :=
  ⟨(C1_shared_secret_length prfZ (fun x => by simp [prfZ]) toyScheme).2.2,
   (C1_shared_secret_length prfZ (fun x => by simp [prfZ]) toyScheme).1
     (KemKey.hybridPub "toy" (KemKey.prim [0, 0, 0]) (KemKey.prim [0, 0]))
     [0, 0, 0] [1, 2, 3, 4, 5] (List.replicate 32 0) (by decide)⟩

/-- C2 (amended): DeriveKeyPair with a seed whose length differs from the
scheme seed size panics with the fmt.Sprintf message; the Go function has
no error result, so nothing is returned to the caller. -/
theorem C2_derive_wrong_seed_panics (sch : Scheme) (seed : Bytes)
    (h : seed.length ≠ sch.first.SeedSize + sch.second.SeedSize) :
    Scheme.DeriveKeyPair sch seed
      = .panic ("seed size must be "
          ++ toString (sch.first.SeedSize + sch.second.SeedSize)) := by
  unfold Scheme.DeriveKeyPair
  rw [if_pos h]

/-- C2 counterexample: on the concrete toy hybrid scheme (seed size 2), a
one-byte seed makes DeriveKeyPair panic; no InvalidSeed error value is
returned, since the function return type carries no error at all. -/
theorem C2_derive_wrong_seed_counterexample :
    Scheme.DeriveKeyPair toyScheme [0] = PanicOr.panic "seed size must be 2" := by
  decide

/-- Witness for C2 (amended): a three-byte seed against the toy scheme of
seed size 2 panics with that seed size in the message. -/
theorem C2_derive_wrong_seed_panics_witness :
    Scheme.DeriveKeyPair toyScheme [1, 2, 3]
      = PanicOr.panic ("seed size must be "
          ++ toString (toyScheme.first.SeedSize + toyScheme.second.SeedSize)) :=
  C2_derive_wrong_seed_panics toyScheme [1, 2, 3] (by decide)

/-- C3 (amended): the hybrid PrivateKey.Equal and PublicKey.Equal return a
boolean for every argument, returning false on an argument of a different
concrete type; the ed25519 PublicKey.Equal returns a boolean on an ed25519
argument, and ed25519 Verify returns a boolean and has no failure path;
but ed25519 PublicKey.Equal panics on an argument of a different concrete
type (unchecked type assertion) instead of returning false. -/
theorem C3_equal_verify_boolean :
    (∀ (eqF eqS : KemKey → KemKey → Bool) (f s other : KemKey),
      (∀ tag a b, other ≠ KemKey.hybridPriv tag a b) →
      PrivateKey.Equal eqF eqS f s other = false) ∧
    (∀ (eqF eqS : KemKey → KemKey → Bool) (f s other : KemKey),
      (∀ tag a b, other ≠ KemKey.hybridPub tag a b) →
      PublicKey.Equal eqF eqS f s other = false) ∧
    (∀ (p q : Bytes) (str : String),
      Ed25519.PublicKey.Equal p (Ed25519.SignPublicKey.ed q str)
        = PanicOr.ok (decide (p = q))) ∧
    (∀ (verify : Bytes → Bytes → Bytes → Bool) (p sig msg : Bytes),
      Ed25519.PublicKey.Verify verify p sig msg = PanicOr.ok (verify p msg sig)) := by
  refine ⟨?_, ?_, ?_, ?_⟩
  · intro eqF eqS f s other h
    cases other with
    | hybridPub _ _ _ => rfl
    | hybridPriv tag a b => exact absurd rfl (h tag a b)
    | prim _ => rfl
    | nilKey => rfl
  · intro eqF eqS f s other h
    cases other with
    | hybridPub tag a b => exact absurd rfl (h tag a b)
    | hybridPriv _ _ _ => rfl
    | prim _ => rfl
    | nilKey => rfl
  · intro p q str
    rfl
  · intro verify p sig msg
    rfl

/-- C3 counterexample: the ed25519 PublicKey.Equal called with a public key
of a different concrete signature type panics on the unchecked type
assertion instead of returning a boolean. -/
theorem C3_equal_foreign_counterexample :
    Ed25519.PublicKey.Equal [1, 2, 3] (Ed25519.SignPublicKey.foreign [1, 2, 3])
      = PanicOr.panic "interface conversion" := by
  decide

/-- Witness for C3 (amended): concrete equality calls on both hybrid key
types with a foreign argument return false, and concrete ed25519 equality
and verification calls return booleans. -/
theorem C3_equal_verify_boolean_witness :
    PrivateKey.Equal (fun _ _ => true) (fun _ _ => true)
      KemKey.nilKey KemKey.nilKey (KemKey.prim [1]) = false ∧
    PublicKey.Equal (fun _ _ => true) (fun _ _ => true)
      KemKey.nilKey KemKey.nilKey (KemKey.prim [1]) = false ∧
    Ed25519.PublicKey.Equal [1] (Ed25519.SignPublicKey.ed [1] "") = PanicOr.ok true ∧
    Ed25519.PublicKey.Verify (fun _ _ _ => true) [1] [2] [3] = PanicOr.ok true :=
  ⟨C3_equal_verify_boolean.1 _ _ _ _ _ (fun _ _ _ h => KemKey.noConfusion h),
   C3_equal_verify_boolean.2.1 _ _ _ _ _ (fun _ _ _ h => KemKey.noConfusion h),
   C3_equal_verify_boolean.2.2.1 [1] [1] "",
   C3_equal_verify_boolean.2.2.2 (fun _ _ _ => true) [1] [2] [3]⟩

end HPQC

namespace HPQC

/-- C4: whenever the two component key pairs satisfy encapsulation
round-trip correctness on the relevant seed slices (the component
ciphertext has its declared length and component decapsulation returns the
encapsulated secret), a successful hybrid EncapsulateDeterministically is
inverted exactly by hybrid Decapsulate: it returns the same shared
secret. -/
theorem C4_roundtrip (prf : Bytes → Bytes) (sch : Scheme) (tag : String)
    (p1 p2 s1 s2 : KemKey) (seed : Bytes)
    (h1 : ∀ ct1 ss1,
      sch.first.EncapsulateDeterministically p1 (seed.take sch.first.EncapsulationSeedSize)
        = .ok (ct1, ss1) →
      ct1.length = sch.first.CiphertextSize ∧ sch.first.Decapsulate s1 ct1 = .ok ss1)
    (h2 : ∀ ct2 ss2,
      sch.second.EncapsulateDeterministically p2 (seed.drop sch.first.EncapsulationSeedSize)
        = .ok (ct2, ss2) →
      ct2.length = sch.second.CiphertextSize ∧ sch.second.Decapsulate s2 ct2 = .ok ss2) :
    ∀ ct ss,
      Scheme.EncapsulateDeterministically prf sch (.hybridPub tag p1 p2) seed = .ok (ct, ss) →
      Scheme.Decapsulate prf sch (.hybridPriv tag s1 s2) ct = .ok ss := by
  intro ct ss h
  unfold Scheme.EncapsulateDeterministically at h
  split at h
  · simp at h
  · simp only [] at h
    cases heq1 : sch.first.EncapsulateDeterministically p1
        (seed.take sch.first.EncapsulationSeedSize) with
    | error e => rw [heq1] at h; simp at h
    | ok pr1 =>
      obtain ⟨ct1, ss1⟩ := pr1
      rw [heq1] at h
      simp only [] at h
      cases heq2 : sch.second.EncapsulateDeterministically p2
          (seed.drop sch.first.EncapsulationSeedSize) with
      | error e => rw [heq2] at h; simp at h
      | ok pr2 =>
        obtain ⟨ct2, ss2⟩ := pr2
        rw [heq2] at h
        simp only [Except.ok.injEq, Prod.mk.injEq] at h
        obtain ⟨hct, hss⟩ := h
        subst hct
        subst hss
        obtain ⟨hl1, hd1⟩ := h1 ct1 ss1 heq1
        obtain ⟨hl2, hd2⟩ := h2 ct2 ss2 heq2
        have hctlen : (ct1 ++ ct2).length = Scheme.CiphertextSize sch := by
          rw [List.length_append, hl1, hl2]; rfl
        unfold Scheme.Decapsulate
        rw [if_neg (fun hne => hne hctlen)]
        simp only [List.take_left' hl1, List.drop_left' hl1, hd1, hd2]

/-- Witness for C4: on the concrete toy hybrid, deterministic
encapsulation produces ciphertext [1,2,3,4,5] with the split-PRF secret,
and decapsulating that ciphertext returns the same secret. -/
theorem C4_roundtrip_witness :
    Scheme.Decapsulate prfZ toyScheme
      (KemKey.hybridPriv "toy" (KemKey.prim [0]) (KemKey.prim [1]))
      [1, 2, 3, 4, 5] = Except.ok (List.replicate 32 0) :=
  C4_roundtrip prfZ toyScheme "toy" (KemKey.prim [2]) (KemKey.prim [3])
    (KemKey.prim [0]) (KemKey.prim [1]) [0, 0, 0]
    (fun ct1 ss1 h => by
      simp only [toyScheme, toyA, Except.ok.injEq, Prod.mk.injEq] at h
      obtain ⟨hc, hs⟩ := h
      subst hc; subst hs
      exact ⟨by decide, by decide⟩)
    (fun ct2 ss2 h => by
      simp only [toyScheme, toyB, Except.ok.injEq, Prod.mk.injEq] at h
      obtain ⟨hc, hs⟩ := h
      subst hc; subst hs
      exact ⟨by decide, by decide⟩)
    [1, 2, 3, 4, 5] (List.replicate 32 0) (by decide)

/-- C5: deterministic encapsulation of a two-component hybrid splits the
seed at the first component's encapsulation seed size, encapsulates each
component with its slice, concatenates the two ciphertexts with no
framing, and outputs as shared secret the XOR of the two PRF branches
PRF(ss1 + ct1 + ct2) XOR PRF(ss2 + ct1 + ct2), where PRF is the 32-byte
Blake2b-256 black box. -/
theorem C5_encaps_structure (prf : Bytes → Bytes) (sch : Scheme) (tag : String)
    (p1 p2 : KemKey) (seed ct1 ss1 ct2 ss2 : Bytes)
    (hlen : seed.length = Scheme.EncapsulationSeedSize sch)
    (h1 : sch.first.EncapsulateDeterministically p1 (seed.take sch.first.EncapsulationSeedSize)
      = .ok (ct1, ss1))
    (h2 : sch.second.EncapsulateDeterministically p2 (seed.drop sch.first.EncapsulationSeedSize)
      = .ok (ct2, ss2)) :
    Scheme.EncapsulateDeterministically prf sch (.hybridPub tag p1 p2) seed
      = .ok (ct1 ++ ct2,
          xorBytes (prf (ss1 ++ ct1 ++ ct2)) (prf (ss2 ++ ct1 ++ ct2))) := by
  unfold Scheme.EncapsulateDeterministically
  rw [if_neg (fun hne => hne hlen)]
  simp only [h1, h2]
  rfl

/-- Witness for C5: a concrete run on the toy hybrid, with the output
written as the concatenation of the component ciphertexts and the XOR of
the two PRF branches. -/
theorem C5_encaps_structure_witness :
    Scheme.EncapsulateDeterministically prfZ toyScheme
      (KemKey.hybridPub "toy" (KemKey.prim [7]) (KemKey.prim [8])) [0, 1, 2]
      = Except.ok ([1, 2] ++ [3, 4, 5],
          xorBytes (prfZ ([10] ++ [1, 2] ++ [3, 4, 5]))
                   (prfZ ([20] ++ [1, 2] ++ [3, 4, 5]))) :=
  C5_encaps_structure prfZ toyScheme "toy" (KemKey.prim [7]) (KemKey.prim [8])
    [0, 1, 2] [1, 2] [10] [3, 4, 5] [20] (by decide) (by decide) (by decide)

/-- C6: the hybrid error conditions.  A ciphertext of wrong total length
gives ErrCiphertextSize; a key of a different concrete type gives
ErrTypeMismatch (in decapsulation once the length check passed, in
encapsulation once the seed check passed); a seed of wrong length gives
ErrSeedSize; and when a component operation fails, the first component
error encountered is returned unchanged, in encapsulation and in
decapsulation. -/
theorem C6_error_conditions (prf : Bytes → Bytes) (sch : Scheme) :
    (∀ sk ct, ct.length ≠ Scheme.CiphertextSize sch →
      Scheme.Decapsulate prf sch sk ct = .error .ErrCiphertextSize) ∧
    (∀ sk ct, ct.length = Scheme.CiphertextSize sch →
      (∀ tag a b, sk ≠ KemKey.hybridPriv tag a b) →
      Scheme.Decapsulate prf sch sk ct = .error .ErrTypeMismatch) ∧
    (∀ pk seed, seed.length ≠ Scheme.EncapsulationSeedSize sch →
      Scheme.EncapsulateDeterministically prf sch pk seed = .error .ErrSeedSize) ∧
    (∀ pk seed, seed.length = Scheme.EncapsulationSeedSize sch →
      (∀ tag a b, pk ≠ KemKey.hybridPub tag a b) →
      Scheme.EncapsulateDeterministically prf sch pk seed = .error .ErrTypeMismatch) ∧
    (∀ tag p1 p2 seed e, seed.length = Scheme.EncapsulationSeedSize sch →
      sch.first.EncapsulateDeterministically p1 (seed.take sch.first.EncapsulationSeedSize)
        = .error e →
      Scheme.EncapsulateDeterministically prf sch (.hybridPub tag p1 p2) seed = .error e) ∧
    (∀ tag p1 p2 seed ct1 ss1 e, seed.length = Scheme.EncapsulationSeedSize sch →
      sch.first.EncapsulateDeterministically p1 (seed.take sch.first.EncapsulationSeedSize)
        = .ok (ct1, ss1) →
      sch.second.EncapsulateDeterministically p2 (seed.drop sch.first.EncapsulationSeedSize)
        = .error e →
      Scheme.EncapsulateDeterministically prf sch (.hybridPub tag p1 p2) seed = .error e) ∧
    (∀ tag s1 s2 ct e, ct.length = Scheme.CiphertextSize sch →
      sch.first.Decapsulate s1 (ct.take sch.first.CiphertextSize) = .error e →
      Scheme.Decapsulate prf sch (.hybridPriv tag s1 s2) ct = .error e) ∧
    (∀ tag s1 s2 ct ss1 e, ct.length = Scheme.CiphertextSize sch →
      sch.first.Decapsulate s1 (ct.take sch.first.CiphertextSize) = .ok ss1 →
      sch.second.Decapsulate s2 (ct.drop sch.first.CiphertextSize) = .error e →
      Scheme.Decapsulate prf sch (.hybridPriv tag s1 s2) ct = .error e) := by
  refine ⟨?_, ?_, ?_, ?_, ?_, ?_, ?_, ?_⟩
  · intro sk ct h
    unfold Scheme.Decapsulate
    rw [if_pos h]
  · intro sk ct h hty
    unfold Scheme.Decapsulate
    rw [if_neg (fun hne => hne h)]
    cases sk with
    | hybridPriv tag a b => exact absurd rfl (hty tag a b)
    | hybridPub _ _ _ => rfl
    | prim _ => rfl
    | nilKey => rfl
  · intro pk seed h
    unfold Scheme.EncapsulateDeterministically
    rw [if_pos h]
  · intro pk seed h hty
    unfold Scheme.EncapsulateDeterministically
    rw [if_neg (fun hne => hne h)]
    cases pk with
    | hybridPub tag a b => exact absurd rfl (hty tag a b)
    | hybridPriv _ _ _ => rfl
    | prim _ => rfl
    | nilKey => rfl
  · intro tag p1 p2 seed e h he
    unfold Scheme.EncapsulateDeterministically
    rw [if_neg (fun hne => hne h)]
    simp only [he]
  · intro tag p1 p2 seed ct1 ss1 e h h1 h2
    unfold Scheme.EncapsulateDeterministically
    rw [if_neg (fun hne => hne h)]
    simp only [h1, h2]
  · intro tag s1 s2 ct e h hd
    unfold Scheme.Decapsulate
    rw [if_neg (fun hne => hne h)]
    simp only [hd]
  · intro tag s1 s2 ct ss1 e h hd1 hd2
    unfold Scheme.Decapsulate
    rw [if_neg (fun hne => hne h)]
    simp only [hd1, hd2]

/-- Witness for C6: each error condition observed on concrete inputs on
the toy hybrid schemes, including first- and second-component failure
propagation in both directions. -/
theorem C6_error_conditions_witness :
    Scheme.Decapsulate prfZ toyScheme
      (KemKey.hybridPriv "toy" KemKey.nilKey KemKey.nilKey) [0]
      = .error .ErrCiphertextSize ∧
    Scheme.Decapsulate prfZ toyScheme (KemKey.prim []) [1, 2, 3, 4, 5]
      = .error .ErrTypeMismatch ∧
    Scheme.EncapsulateDeterministically prfZ toyScheme (KemKey.prim []) [0]
      = .error .ErrSeedSize ∧
    Scheme.EncapsulateDeterministically prfZ toyScheme (KemKey.prim []) [0, 0, 0]
      = .error .ErrTypeMismatch ∧
    Scheme.EncapsulateDeterministically prfZ toyFailScheme1
      (KemKey.hybridPub "toyFail1" KemKey.nilKey KemKey.nilKey) [0, 0, 0]
      = .error (.comp "boomA") ∧
    Scheme.EncapsulateDeterministically prfZ toyFailScheme2
      (KemKey.hybridPub "toyFail2" KemKey.nilKey KemKey.nilKey) [0, 0, 0]
      = .error (.comp "boomB") ∧
    Scheme.Decapsulate prfZ toyFailScheme1
      (KemKey.hybridPriv "toyFail1" KemKey.nilKey KemKey.nilKey) [1, 2, 3, 4, 5]
      = .error (.comp "boomA") ∧
    Scheme.Decapsulate prfZ toyFailScheme2
      (KemKey.hybridPriv "toyFail2" KemKey.nilKey KemKey.nilKey) [1, 2, 3, 4, 5]
      = .error (.comp "boomB") :=
  ⟨(C6_error_conditions prfZ toyScheme).1 _ [0] (by decide),
   (C6_error_conditions prfZ toyScheme).2.1 _ [1, 2, 3, 4, 5] (by decide)
     (fun _ _ _ h => KemKey.noConfusion h),
   (C6_error_conditions prfZ toyScheme).2.2.1 _ [0] (by decide),
   (C6_error_conditions prfZ toyScheme).2.2.2.1 _ [0, 0, 0] (by decide)
     (fun _ _ _ h => KemKey.noConfusion h),
   (C6_error_conditions prfZ toyFailScheme1).2.2.2.2.1 "toyFail1"
     KemKey.nilKey KemKey.nilKey [0, 0, 0] (.comp "boomA") (by decide) (by decide),
   (C6_error_conditions prfZ toyFailScheme2).2.2.2.2.2.1 "toyFail2"
     KemKey.nilKey KemKey.nilKey [0, 0, 0] [1, 2] [10] (.comp "boomB")
     (by decide) (by decide) (by decide),
   (C6_error_conditions prfZ toyFailScheme1).2.2.2.2.2.2.1 "toyFail1"
     KemKey.nilKey KemKey.nilKey [1, 2, 3, 4, 5] (.comp "boomA") (by decide) (by decide),
   (C6_error_conditions prfZ toyFailScheme2).2.2.2.2.2.2.2 "toyFail2"
     KemKey.nilKey KemKey.nilKey [1, 2, 3, 4, 5] [10] (.comp "boomB")
     (by decide) (by decide) (by decide)⟩

/-- C7: the hybrid public key, private key and ciphertext sizes are the
sums of the component sizes, and a successfully marshaled hybrid public or
private key whose component keys marshal to their declared component sizes
has exactly the declared total byte length. -/
theorem C7_size_additivity (sch : Scheme) :
    Scheme.PublicKeySize sch = sch.first.PublicKeySize + sch.second.PublicKeySize ∧
    Scheme.PrivateKeySize sch = sch.first.PrivateKeySize + sch.second.PrivateKeySize ∧
    Scheme.CiphertextSize sch = sch.first.CiphertextSize + sch.second.CiphertextSize ∧
    (∀ tag f s bf bs,
      KemKey.MarshalBinary f = .ok bf → bf.length = sch.first.PublicKeySize →
      KemKey.MarshalBinary s = .ok bs → bs.length = sch.second.PublicKeySize →
      KemKey.MarshalBinary (KemKey.hybridPub tag f s) = .ok (bf ++ bs) ∧
      (bf ++ bs).length = Scheme.PublicKeySize sch) ∧
    (∀ tag f s bf bs,
      KemKey.MarshalBinary f = .ok bf → bf.length = sch.first.PrivateKeySize →
      KemKey.MarshalBinary s = .ok bs → bs.length = sch.second.PrivateKeySize →
      KemKey.MarshalBinary (KemKey.hybridPriv tag f s) = .ok (bf ++ bs) ∧
      (bf ++ bs).length = Scheme.PrivateKeySize sch) := by
  refine ⟨rfl, rfl, rfl, ?_, ?_⟩
  · intro tag f s bf bs hf hlf hs hls
    have hfn : f ≠ KemKey.nilKey := by
      intro hn; subst hn; simp [KemKey.MarshalBinary] at hf
    have hsn : s ≠ KemKey.nilKey := by
      intro hn; subst hn; simp [KemKey.MarshalBinary] at hs
    constructor
    · unfold KemKey.MarshalBinary
      rw [if_neg (fun hor => hor.elim hfn hsn)]
      simp only [hf, hs]
    · rw [List.length_append, hlf, hls]; rfl
  · intro tag f s bf bs hf hlf hs hls
    have hfn : f ≠ KemKey.nilKey := by
      intro hn; subst hn; simp [KemKey.MarshalBinary] at hf
    have hsn : s ≠ KemKey.nilKey := by
      intro hn; subst hn; simp [KemKey.MarshalBinary] at hs
    constructor
    · unfold KemKey.MarshalBinary
      rw [if_neg (fun hor => hor.elim hfn hsn)]
      simp only [hf, hs]
    · rw [List.length_append, hlf, hls]; rfl

/-- Witness for C7: the toy hybrid declares public key size 5 and private
key size 6, and hybrid keys over component keys of sizes 3 + 2 and 4 + 2
marshal to exactly those lengths. -/
theorem C7_size_additivity_witness :
    KemKey.MarshalBinary
        (KemKey.hybridPub "toy" (KemKey.prim [1, 2, 3]) (KemKey.prim [9, 8]))
      = .ok ([1, 2, 3] ++ [9, 8]) ∧
    (([1, 2, 3] ++ [9, 8] : Bytes)).length = Scheme.PublicKeySize toyScheme ∧
    KemKey.MarshalBinary
        (KemKey.hybridPriv "toy" (KemKey.prim [1, 2, 3, 4]) (KemKey.prim [5, 6]))
      = .ok ([1, 2, 3, 4] ++ [5, 6]) ∧
    (([1, 2, 3, 4] ++ [5, 6] : Bytes)).length = Scheme.PrivateKeySize toyScheme :=
  ⟨((C7_size_additivity toyScheme).2.2.2.1 "toy" (KemKey.prim [1, 2, 3]) (KemKey.prim [9, 8])
      [1, 2, 3] [9, 8] (by decide) (by decide) (by decide) (by decide)).1,
   ((C7_size_additivity toyScheme).2.2.2.1 "toy" (KemKey.prim [1, 2, 3]) (KemKey.prim [9, 8])
      [1, 2, 3] [9, 8] (by decide) (by decide) (by decide) (by decide)).2,
   ((C7_size_additivity toyScheme).2.2.2.2 "toy" (KemKey.prim [1, 2, 3, 4]) (KemKey.prim [5, 6])
      [1, 2, 3, 4] [5, 6] (by decide) (by decide) (by decide) (by decide)).1,
   ((C7_size_additivity toyScheme).2.2.2.2 "toy" (KemKey.prim [1, 2, 3, 4]) (KemKey.prim [5, 6])
      [1, 2, 3, 4] [5, 6] (by decide) (by decide) (by decide) (by decide)).2⟩

end HPQC
